import Mathlib

/-!
Shallow embedding of the DynamoDB data-access core of the soap-note-chatbot
repository, covering the in-memory emulator
(src/services/DynamoDbService/MockDynamoDb.service.ts), the timestamp and
update-expression handling of the networked implementation
(src/services/DynamoDbService/ProdDynamoDb.service.ts), and the backend
selection strategy (src/services/classResolver.ts).

Modelling conventions:
- JavaScript scalar values are modelled by the inductive type Value; numbers
  are modelled as integers (every number exercised by the claims is integral).
- A JavaScript object (item, alias map) is an association list in insertion
  order; lookup takes the first binding; assignment replaces in place or
  appends, as JavaScript property assignment and Map.set do.
- A thrown exception is an error value; stateful methods return the error
  together with the state at the moment of the throw, so mutations performed
  before the throw are preserved, as they are in the source.
- The condition- and update-expression mini-language operates on genuine
  strings; the regular-expression matching of the source is implemented
  character by character with the same scanning behaviour (leftmost match,
  greedy character classes, lazy clause capture).
-/

namespace SoapDb

/-- A JavaScript scalar value stored in an item attribute. -/
inductive Value where
  | str (s : String)
  | num (n : Int)
  | bool (b : Bool)
deriving DecidableEq, Repr

/-- A JavaScript object: attribute bindings in insertion order. -/
abbrev Item := List (String × Value)

/-- ExpressionAttributeNames: placeholder to attribute-name bindings. -/
abbrev NameMap := List (String × String)

/-- ExpressionAttributeValues: placeholder to literal bindings. -/
abbrev ValueMap := List (String × Value)

/-- Property read obj[k]: first binding wins (keys are unique in practice). -/
def lookup {α : Type} (m : List (String × α)) (k : String) : Option α :=
  match m with
  | [] => none
  | (k', v) :: rest => if k' = k then some v else lookup rest k

/-- Property write obj[k] = v: replaces an existing binding in place,
otherwise appends (JavaScript property insertion order). -/
def setAttr {α : Type} (m : List (String × α)) (k : String) (v : α) :
    List (String × α) :=
  match m with
  | [] => [(k, v)]
  | (k', v') :: rest =>
    if k' = k then (k, v) :: rest else (k', v') :: setAttr rest k v

/-- JavaScript truthiness of a scalar value (empty string, 0 and false are
falsy). -/
def valFalsy : Value → Bool
  | .str s => s == ""
  | .num n => n == 0
  | .bool b => !b

/-- String(v) conversion of a scalar. -/
def valueToString : Value → String
  | .str s => s
  | .num n => toString n
  | .bool b => if b then "true" else "false"

/-! ### Character classes and low-level string scanning

These model the regular-expression character classes used by the source:
word characters (the JavaScript \w class), whitespace (\s), and the custom
classes with # and : used by the comparison pattern. -/

/-- JavaScript \w : ASCII letters, digits and underscore. -/
def isWordChar (c : Char) : Bool :=
  c.isAlphanum || c == '_'

/-- The character class of the comparison pattern left operand. -/
def isWordHash (c : Char) : Bool :=
  c == '#' || isWordChar c

/-- The character class of the comparison pattern right operand. -/
def isWordColon (c : Char) : Bool :=
  c == ':' || isWordChar c

/-- JavaScript \s (approximated by Unicode whitespace). -/
def jsWs (c : Char) : Bool := c.isWhitespace

/-- String.prototype.trim: strip whitespace at both ends. -/
def trimList (l : List Char) : List Char :=
  ((l.dropWhile jsWs).reverse.dropWhile jsWs).reverse

/-- String.prototype.includes: pat occurs as a contiguous substring. -/
def containsSub (l pat : List Char) : Bool :=
  match l with
  | [] => pat.isEmpty
  | _ :: rest => pat.isPrefixOf l || containsSub rest pat

/-- Split at the leftmost occurrence of sep, returning the part before and
the part after; none when sep does not occur. -/
def splitFirst (sep : List Char) : List Char → Option (List Char × List Char)
  | [] => none
  | c :: rest =>
    if sep.isPrefixOf (c :: rest) then some ([], (c :: rest).drop sep.length)
    else
      match splitFirst sep rest with
      | some (a, b) => some (c :: a, b)
      | none => none

/-- Fuelled worker for splitOnSub (the fuel is always sufficient because
each step removes at least one character). -/
def splitOnSubGo (sep : List Char) : Nat → List Char → List (List Char)
  | 0, l => [l]
  | fuel + 1, l =>
    match splitFirst sep l with
    | none => [l]
    | some (a, b) => a :: splitOnSubGo sep fuel b

/-- String.prototype.split with a literal separator: greedy left-to-right
non-overlapping occurrences. -/
def splitOnSub (sep l : List Char) : List (List Char) :=
  splitOnSubGo sep (l.length + 1) l

/-- Fuelled worker for splitWs. -/
def splitWsGo : Nat → List Char → List Char → List (List Char)
  | 0, acc, _ => [acc.reverse]
  | _, acc, [] => [acc.reverse]
  | fuel + 1, acc, c :: rest =>
    if jsWs c then acc.reverse :: splitWsGo fuel [] (rest.dropWhile jsWs)
    else splitWsGo fuel (c :: acc) rest

/-- String.prototype.split on the regular expression \s+ : maximal
whitespace runs separate the fields (leading or trailing runs produce empty
fields, as in JavaScript). -/
def splitWs (l : List Char) : List (List Char) :=
  splitWsGo (l.length + 1) [] l

/-! ### The regular-expression matchers of the source

Each matcher reproduces the leftmost-match scanning of the corresponding
JavaScript regular expression, advancing the start position one character at
a time on failure exactly as a backtracking engine does. -/

/-- Matcher for the patterns attribute_not_exists\(([^)]+)\) and
attribute_exists\(([^)]+)\): litOpen is the literal including the opening
parenthesis; the capture is the maximal nonempty run of non-parenthesis
characters that is closed by a parenthesis. -/
def findCapture (litOpen : List Char) : List Char → Option (List Char)
  | [] => none
  | c :: rest =>
    if litOpen.isPrefixOf (c :: rest) then
      let after := (c :: rest).drop litOpen.length
      let run := after.takeWhile (fun d => d != ')')
      match after.drop run.length, run with
      | ')' :: _, _ :: _ => some run
      | _, _ => findCapture litOpen rest
    else findCapture litOpen rest

/-- The operator alternation >=|<=|>|<|= of the comparison pattern, tried
in the source order at the current position. -/
def matchCompOp : List Char → Option (String × List Char)
  | '>' :: '=' :: rest => some (">=", rest)
  | '<' :: '=' :: rest => some ("<=", rest)
  | '>' :: rest => some (">", rest)
  | '<' :: rest => some ("<", rest)
  | '=' :: rest => some ("=", rest)
  | _ => none

/-- Matcher for the comparison pattern ([#\w]+)\s*(>=|<=|>|<|=)\s*([:\w]+):
returns the three capture groups of the leftmost match. -/
def findComparison : List Char → Option (String × String × String)
  | [] => none
  | c :: rest =>
    if isWordHash c then
      let run := (c :: rest).takeWhile isWordHash
      let afterSp := ((c :: rest).dropWhile isWordHash).dropWhile jsWs
      match matchCompOp afterSp with
      | some (op, rest2) =>
        let v := (rest2.dropWhile jsWs).takeWhile isWordColon
        match v with
        | [] => findComparison rest
        | _ :: _ => some (run.asString, op, v.asString)
      | none => findComparison rest
    else findComparison rest

/-- Does l start with \s+ followed by one of the terminator keywords?
Returns the keyword and the remainder after it. Used by the clause patterns
SET\s+(.+?)(?:\s+(?:ADD|REMOVE|DELETE)|$) and its ADD counterpart. -/
def findTermKw (terms : List String) (l : List Char) : Option (String × List Char) :=
  let r := l.takeWhile jsWs
  match r with
  | [] => none
  | _ :: _ =>
    let t := l.drop r.length
    match terms.find? (fun kw => kw.data.isPrefixOf t) with
    | some kw => some (kw, t.drop kw.length)
    | none => none

/-- Lazy capture (.+?) of the clause patterns: the shortest nonempty prefix
of the body after which either a terminator keyword follows or the string
ends. The accumulator holds the clause so far, reversed. -/
def lazyClauseGo (terms : List String) : List Char → List Char →
    Option (List Char × Option (String × List Char))
  | _, [] => none
  | acc, c :: rest =>
    match findTermKw terms rest with
    | some (kw, after) => some ((c :: acc).reverse, some (kw, after))
    | none =>
      match rest with
      | [] => some ((c :: acc).reverse, none)
      | _ :: _ => lazyClauseGo terms (c :: acc) rest

/-- Leftmost match of KEYWORD\s+(.+?)(?:\s+(?:terminators)|$). Returns the
text before the match, the clause capture, and either the terminator keyword
with the text after it or none when the match ran to the end of the string.
When the body after the whitespace is empty the engine backtracks \s+ and
captures the final whitespace character as the clause (possible only when
the run has at least two characters). -/
def findClauseMatch (kw : List Char) (terms : List String) :
    List Char → Option (List Char × List Char × Option (String × List Char))
  | [] => none
  | c :: rest =>
    if kw.isPrefixOf (c :: rest) then
      let afterKw := (c :: rest).drop kw.length
      let wsRun := afterKw.takeWhile jsWs
      match wsRun with
      | [] =>
        (findClauseMatch kw terms rest).map (fun (p, cl, t) => (c :: p, cl, t))
      | wc :: wrest =>
        let body := afterKw.drop wsRun.length
        match lazyClauseGo terms [] body with
        | some (cl, t) => some ([], cl, t)
        | none =>
          match wrest with
          | [] => (findClauseMatch kw terms rest).map
              (fun (p, cl, t) => (c :: p, cl, t))
          | _ :: _ => some ([], [(wc :: wrest).getLast (by simp)], none)
    else (findClauseMatch kw terms rest).map (fun (p, cl, t) => (c :: p, cl, t))

/-! ### Condition-expression evaluation

Faithful translation of evaluateCondition from MockDynamoDb.service.ts. -/

/-- Alias resolution expressionAttributeNames?.[attrName] || attrName: the
JavaScript || also falls back when the bound name is the empty string. -/
def resolveName (names : Option NameMap) (attr : String) : String :=
  match names with
  | none => attr
  | some m =>
    match lookup m attr with
    | some v => if v == "" then attr else v
    | none => attr

/-- Lookup in an optional alias map: expressionAttributeValues?.[k]. -/
def lookupOpt {α : Type} (m : Option (List (String × α))) (k : String) :
    Option α :=
  match m with
  | none => none
  | some m' => lookup m' k

/-- One ordering comparison with the numeric and string type guards of the
source: operands of mismatched or non-orderable types evaluate to false. -/
def orderingCmp (op : String) (actual expected : Option Value) : Bool :=
  match actual, expected with
  | some (.num x), some (.num y) =>
    match op with
    | ">" => decide (x > y)
    | "<" => decide (x < y)
    | ">=" => decide (x ≥ y)
    | "<=" => decide (x ≤ y)
    | _ => false
  | some (.str x), some (.str y) =>
    match op with
    | ">" => decide (y.data < x.data)
    | "<" => decide (x.data < y.data)
    | ">=" => !decide (x.data < y.data)
    | "<=" => !decide (y.data < x.data)
    | _ => false
  | _, _ => false

/-- A single recognised atom: attribute_not_exists, attribute_exists, or a
binary comparison; anything else is false (fail-closed). Each function
branch fires only when the includes guard and the pattern match both
succeed, falling through otherwise, as in the source. -/
def evalAtom (item : Option Item) (names : Option NameMap)
    (values : Option ValueMap) (s : String) : Bool :=
  match (if containsSub s.data "attribute_not_exists".data then
          findCapture "attribute_not_exists(".data s.data else none) with
  | some attr =>
    let actualAttrName := resolveName names attr.asString
    item.isNone || (lookupOpt item actualAttrName).isNone
  | none =>
    match (if containsSub s.data "attribute_exists".data then
            findCapture "attribute_exists(".data s.data else none) with
    | some attr =>
      let actualAttrName := resolveName names attr.asString
      !(item.isNone || (lookupOpt item actualAttrName).isNone)
    | none =>
      match findComparison s.data, item, names, values with
      | some (attrName, op, valueName), some it, some nm, some vl =>
        let actualAttrName := resolveName (some nm) attrName
        let expectedValue := lookup vl valueName
        let actualValue := lookup it actualAttrName
        if op == "=" then actualValue == expectedValue
        else orderingCmp op actualValue expectedValue
      | _, _, _, _ => false

/-- Fuelled recursive body of evaluateCondition: the falsy check, the AND
split, the OR split, then the atom forms. Each recursive call receives a
strictly shorter string, so fuel length + 1 never runs out. -/
def evalCondGo (item : Option Item) (names : Option NameMap)
    (values : Option ValueMap) : Nat → String → Bool
  | 0, _ => false
  | fuel + 1, s =>
    if s == "" then true
    else if containsSub s.data " AND ".data then
      ((splitOnSub " AND ".data s.data).map trimList).all
        (fun c => evalCondGo item names values fuel c.asString)
    else if containsSub s.data " OR ".data then
      ((splitOnSub " OR ".data s.data).map trimList).any
        (fun c => evalCondGo item names values fuel c.asString)
    else evalAtom item names values s

/-- evaluateCondition from MockDynamoDb.service.ts: an absent (or empty,
both falsy) condition expression is vacuously true. -/
def evaluateCondition (item : Option Item) (conditionExpression : Option String)
    (expressionAttributeNames : Option NameMap)
    (expressionAttributeValues : Option ValueMap) : Bool :=
  match conditionExpression with
  | none => true
  | some s =>
    evalCondGo item expressionAttributeNames expressionAttributeValues
      (s.length + 1) s

/-! ### Update-expression application

Faithful translation of applyUpdateExpression from MockDynamoDb.service.ts:
the SET clause is matched by SET\s+(.+?)(?:\s+(?:ADD|REMOVE|DELETE)|$) and
the ADD clause by ADD\s+(.+?)(?:\s+(?:SET|REMOVE|DELETE)|$), both against
the original expression; assignments are applied left to right. -/

/-- The body of the SET assignment loop: split on the first =, trim, resolve
aliases, and assign when the value placeholder resolves (undefined values
are skipped). -/
def applySetAssignment (names : Option NameMap) (values : Option ValueMap)
    (it : Item) (assignment : List Char) : Item :=
  match (splitOnSub ['='] assignment).map trimList with
  | [] => it
  | attrPath :: restParts =>
    let actualAttrName := resolveName names attrPath.asString
    let value :=
      match restParts.head? with
      | some valuePath => lookupOpt values valuePath.asString
      | none => none
    match value with
    | some v => setAttr it actualAttrName v
    | none => it

/-- The body of the ADD assignment loop: the assignment must split into
exactly two whitespace-separated parts and the addend must resolve to a
number; the prior value contributes when numeric and defaults to 0
otherwise (including when it is present but non-numeric). -/
def applyAddAssignment (names : Option NameMap) (values : Option ValueMap)
    (it : Item) (assignment : List Char) : Item :=
  match splitWs assignment with
  | [attrPath, valuePath] =>
    let actualAttrName := resolveName names attrPath.asString
    match lookupOpt values valuePath.asString with
    | some (.num addValue) =>
      let currentValue : Int :=
        match lookup it actualAttrName with
        | some (.num m) => m
        | _ => 0
      setAttr it actualAttrName (.num (currentValue + addValue))
    | _ => it
  | _ => it

/-- applyUpdateExpression from MockDynamoDb.service.ts. -/
def applyUpdateExpression (item : Item) (updateExpression : String)
    (expressionAttributeNames : Option NameMap)
    (expressionAttributeValues : Option ValueMap) : Item :=
  let item1 :=
    match findClauseMatch "SET".data ["ADD", "REMOVE", "DELETE"]
        updateExpression.data with
    | some (_, setClause, _) =>
      ((splitOnSub [','] setClause).map trimList).foldl
        (applySetAssignment expressionAttributeNames expressionAttributeValues)
        item
    | none => item
  match findClauseMatch "ADD".data ["SET", "REMOVE", "DELETE"]
      updateExpression.data with
  | some (_, addClause, _) =>
    ((splitOnSub [','] addClause).map trimList).foldl
      (applyAddAssignment expressionAttributeNames expressionAttributeValues)
      item1
  | none => item1

/-! ### The in-memory store and key serialisation -/

/-- The per-table storage: a JavaScript Map from serialised key to stored
item, in insertion order. -/
abbrev Store := List (String × Item)

/-- Map.prototype.get. -/
def mapGet (st : Store) (k : String) : Option Item := lookup st k

/-- Map.prototype.set: replaces in place, otherwise appends. -/
def mapSet (st : Store) (k : String) (v : Item) : Store := setAttr st k v

/-- Map.prototype.delete. -/
def mapDelete (st : Store) (k : String) : Store :=
  match st with
  | [] => []
  | (k', v') :: rest =>
    if k' = k then rest else (k', v') :: mapDelete rest k

/-- JSON serialisation of a scalar (string escaping is not modelled; no key
value exercised here needs it). -/
def jsonVal : Value → String
  | .str s => "\"" ++ s ++ "\""
  | .num n => toString n
  | .bool b => if b then "true" else "false"

/-- Lexicographic code-unit order on attribute names, the default
Array.prototype.sort comparator for strings. -/
def nameLt (a b : String) : Bool := decide (a.data < b.data)

/-- Insert into a name-sorted list, keeping stability. -/
def insertByName (p : String × Value) : List (String × Value) → List (String × Value)
  | [] => [p]
  | q :: rest =>
    if nameLt p.1 q.1 then p :: q :: rest else q :: insertByName p rest

/-- Sort key attributes by name (Object.keys(key).sort() followed by the
re-insertion in sorted order). -/
def sortByName (l : List (String × Value)) : List (String × Value) :=
  l.foldr insertByName []

/-- serializeKey from MockDynamoDb.service.ts: sort the attribute names,
then JSON-serialise the resulting object. -/
def serializeKey (key : Item) : String :=
  "\x7b" ++ String.intercalate ","
    ((sortByName key).map (fun (k, v) => "\"" ++ k ++ "\":" ++ jsonVal v))
  ++ "\x7d"

/-! ### The emulator service -/

/-- The construction-time data of a MockDynamoDBService instance: partition
key name, optional sort key name, and the external schema validator
(schema.parse returning the parsed item, or none for a thrown ZodError). -/
structure DbService where
  partitionKey : String
  sortKey : Option String
  parse : Item → Option Item

/-- The error taxonomy raised by the service contract. -/
inductive DbError where
  | notFound
  | conditionalCheckFailed
  | validationFailed
  | tableNotFound
  | transactionCancelled
  | unknown
deriving DecidableEq, Repr

/-- buildKey: extract the partition key and, when declared, the sort key
from a key record. An absent attribute is dropped, as JSON.stringify drops
properties assigned undefined. -/
def buildKey (svc : DbService) (key : Item) : Item :=
  (match lookup key svc.partitionKey with
   | some v => [(svc.partitionKey, v)]
   | none => []) ++
  (match svc.sortKey with
   | some sk =>
     match lookup key sk with
     | some v => [(sk, v)]
     | none => []
   | none => [])

/-- The result of a state-mutating operation: the outcome (thrown error or
returned value) together with the store afterwards; mutations performed
before a throw are preserved. -/
abbrev OpResult := Except DbError (Option Item) × Store

/-- Options of putItem and deleteItem. -/
structure WriteOptions where
  conditionExpression : Option String := none
  expressionAttributeNames : Option NameMap := none
  expressionAttributeValues : Option ValueMap := none
  returnValues : Option String := none

/-- Options of updateItem (updateExpression is required). -/
structure UpdateOptions where
  updateExpression : String
  conditionExpression : Option String := none
  expressionAttributeNames : Option NameMap := none
  expressionAttributeValues : Option ValueMap := none
  returnValues : Option String := none

/-- validateAndParseItem: schema.parse, with a failure becoming a
DynamoDbValidationError. -/
def validateAndParseItem (svc : DbService) (item : Item) :
    Except DbError Item :=
  match svc.parse item with
  | some t => .ok t
  | none => .error .validationFailed

/-- MockDynamoDBService.getItem: absence is a normal return, not an error. -/
def getItem (svc : DbService) (st : Store) (key : Item) :
    Except DbError (Option Item) :=
  match mapGet st (serializeKey (buildKey svc key)) with
  | none => .ok none
  | some item =>
    match validateAndParseItem svc item with
    | .ok t => .ok (some t)
    | .error e => .error e

/-- MockDynamoDBService.putItem: build the key from the item itself (the
inline key construction of the source is the same computation as buildKey
applied to the full item), check the condition against the existing item,
validate, store a copy, and return the old item only for ALL_OLD. The item
is stored unchanged: the emulator performs no timestamp side effect. -/
def putItem (svc : DbService) (st : Store) (item : Item)
    (options : WriteOptions) : OpResult :=
  let keyStr := serializeKey (buildKey svc item)
  let existingItem := mapGet st keyStr
  if evaluateCondition existingItem options.conditionExpression
      options.expressionAttributeNames options.expressionAttributeValues then
    match validateAndParseItem svc item with
    | .error e => (.error e, st)
    | .ok _ =>
      let st' := mapSet st keyStr item
      if options.returnValues == some "ALL_OLD" then
        match existingItem with
        | some old =>
          match validateAndParseItem svc old with
          | .ok t => (.ok (some t), st')
          | .error e => (.error e, st')
        | none => (.ok none, st')
      else (.ok none, st')
  else (.error .conditionalCheckFailed, st)

/-- MockDynamoDBService.updateItem: NotFound for a missing key, conditional
check, update-expression application, validation before storing. -/
def updateItem (svc : DbService) (st : Store) (key : Item)
    (options : UpdateOptions) : OpResult :=
  let keyStr := serializeKey (buildKey svc key)
  match mapGet st keyStr with
  | none => (.error .notFound, st)
  | some existingItem =>
    if evaluateCondition (some existingItem) options.conditionExpression
        options.expressionAttributeNames options.expressionAttributeValues then
      let updatedItem := applyUpdateExpression existingItem
        options.updateExpression options.expressionAttributeNames
        options.expressionAttributeValues
      match validateAndParseItem svc updatedItem with
      | .error e => (.error e, st)
      | .ok validatedItem =>
        let st' := mapSet st keyStr updatedItem
        match options.returnValues with
        | some "ALL_OLD" =>
          (match validateAndParseItem svc existingItem with
           | .ok t => (.ok (some t), st')
           | .error e => (.error e, st'))
        | some "ALL_NEW" => (.ok (some validatedItem), st')
        | some "UPDATED_NEW" => (.ok (some validatedItem), st')
        | some "UPDATED_OLD" =>
          (match validateAndParseItem svc existingItem with
           | .ok t => (.ok (some t), st')
           | .error e => (.error e, st'))
        | _ => (.ok none, st')
    else (.error .conditionalCheckFailed, st)

/-- MockDynamoDBService.deleteItem: NotFound when the key is absent (checked
before the condition), conditional check, then removal. -/
def deleteItem (svc : DbService) (st : Store) (key : Item)
    (options : WriteOptions) : OpResult :=
  let keyStr := serializeKey (buildKey svc key)
  match mapGet st keyStr with
  | none => (.error .notFound, st)
  | some existingItem =>
    if evaluateCondition (some existingItem) options.conditionExpression
        options.expressionAttributeNames options.expressionAttributeValues then
      let st' := mapDelete st keyStr
      if options.returnValues == some "ALL_OLD" then
        match validateAndParseItem svc existingItem with
        | .ok t => (.ok (some t), st')
        | .error e => (.error e, st')
      else (.ok none, st')
    else (.error .conditionalCheckFailed, st)

/-- A batchWrite operation. -/
inductive BatchOp where
  | put (item : Item)
  | delete (key : Item)

/-- MockDynamoDBService.batchWrite: a plain sequential loop delegating to
putItem and deleteItem with default options — no chunking, no rollback; the
first thrown error stops the loop with earlier mutations kept. -/
def batchWrite (svc : DbService) (st : Store) :
    List BatchOp → Except DbError Unit × Store
  | [] => (.ok (), st)
  | op :: rest =>
    match op with
    | .put item =>
      match putItem svc st item {} with
      | (.ok _, st') => batchWrite svc st' rest
      | (.error e, st') => (.error e, st')
    | .delete key =>
      match deleteItem svc st key {} with
      | (.ok _, st') => batchWrite svc st' rest
      | (.error e, st') => (.error e, st')

/-- The operation kinds of transactWrite. -/
inductive TxOpKind where
  | put
  | update
  | delete
  | conditionCheck
deriving DecidableEq, Repr

/-- One transactWrite operation (fields are optional as in the source's
parameter type). -/
structure TxOp where
  operation : TxOpKind
  item : Option Item := none
  key : Option Item := none
  updateExpression : Option String := none
  conditionExpression : Option String := none
  expressionAttributeNames : Option NameMap := none
  expressionAttributeValues : Option ValueMap := none

/-- Phase one of MockDynamoDBService.transactWrite: only conditionCheck
operations (with a key present) are pre-evaluated against the state at call
start; the first failure is the thrown error. -/
def txPhase1 (svc : DbService) (st : Store) : List TxOp → Option DbError
  | [] => none
  | op :: rest =>
    match op.operation, op.key with
    | .conditionCheck, some k =>
      let item := mapGet st (serializeKey (buildKey svc k))
      if evaluateCondition item op.conditionExpression
          op.expressionAttributeNames op.expressionAttributeValues then
        txPhase1 svc st rest
      else some .conditionalCheckFailed
    | _, _ => txPhase1 svc st rest

/-- Phase two of MockDynamoDBService.transactWrite: apply put, update and
delete sequentially through the ordinary service methods, each evaluating
its own condition at apply time; operations with missing required fields
are skipped, and an empty updateExpression is falsy and also skips. -/
def txPhase2 (svc : DbService) (st : Store) :
    List TxOp → Except DbError Unit × Store
  | [] => (.ok (), st)
  | op :: rest =>
    match op.operation with
    | .put =>
      match op.item with
      | some item =>
        match putItem svc st item
            { conditionExpression := op.conditionExpression,
              expressionAttributeNames := op.expressionAttributeNames,
              expressionAttributeValues := op.expressionAttributeValues } with
        | (.ok _, st') => txPhase2 svc st' rest
        | (.error e, st') => (.error e, st')
      | none => txPhase2 svc st rest
    | .update =>
      match op.key, op.updateExpression with
      | some k, some ue =>
        if ue == "" then txPhase2 svc st rest
        else
          match updateItem svc st k
              { updateExpression := ue,
                conditionExpression := op.conditionExpression,
                expressionAttributeNames := op.expressionAttributeNames,
                expressionAttributeValues := op.expressionAttributeValues } with
          | (.ok _, st') => txPhase2 svc st' rest
          | (.error e, st') => (.error e, st')
      | _, _ => txPhase2 svc st rest
    | .delete =>
      match op.key with
      | some k =>
        match deleteItem svc st k
            { conditionExpression := op.conditionExpression,
              expressionAttributeNames := op.expressionAttributeNames,
              expressionAttributeValues := op.expressionAttributeValues } with
        | (.ok _, st') => txPhase2 svc st' rest
        | (.error e, st') => (.error e, st')
      | none => txPhase2 svc st rest
    | .conditionCheck => txPhase2 svc st rest

/-- MockDynamoDBService.transactWrite: pre-evaluate conditionCheck
operations, then apply the mutations sequentially. -/
def transactWrite (svc : DbService) (st : Store) (operations : List TxOp) :
    Except DbError Unit × Store :=
  match txPhase1 svc st operations with
  | some e => (.error e, st)
  | none => txPhase2 svc st operations

/-! ### Scan and query execution -/

/-- The paginated result of execute (lastEvaluatedKey is always undefined
in the emulator and is omitted). -/
structure PaginatedResult where
  items : List Item
  count : Nat
  scannedCount : Nat
deriving DecidableEq, Repr

/-- The limit test of the builders: if (this.limitValue && items.length >=
this.limitValue) — a limit of 0 is falsy and disables the check. -/
def limitHit (limit : Option Nat) (taken : Nat) : Bool :=
  match limit with
  | some n => n != 0 && taken ≥ n
  | none => false

/-- The filter step of the builders: if (this.filterExpressionValue) — an
absent or empty (falsy) filter passes every item; otherwise
evaluateCondition decides. -/
def filterPasses (filterExpression : Option String) (names : Option NameMap)
    (values : Option ValueMap) (item : Item) : Bool :=
  match filterExpression with
  | some fe =>
    if fe == "" then true
    else evaluateCondition (some item) (some fe) names values
  | none => true

/-- Parameters accumulated by MockDynamoDbScanBuilder. -/
structure ScanParams where
  filterExpression : Option String := none
  filterAttributeNames : Option NameMap := none
  filterAttributeValues : Option ValueMap := none
  limit : Option Nat := none

/-- The scan loop of MockDynamoDbScanBuilder.execute: taken counts the
items pushed so far (for the limit test); returns the pushed items and the
scanned count; the loop breaks right after the push that reaches the
limit. -/
def scanGo (parse : Item → Option Item) (p : ScanParams) :
    List Item → Nat → List Item × Nat
  | [], _ => ([], 0)
  | item :: rest, taken =>
    if filterPasses p.filterExpression p.filterAttributeNames
        p.filterAttributeValues item then
      match parse item with
      | some parsedItem =>
        if limitHit p.limit (taken + 1) then ([parsedItem], 1)
        else
          let (is, sc) := scanGo parse p rest (taken + 1)
          (parsedItem :: is, sc + 1)
      | none =>
        let (is, sc) := scanGo parse p rest taken
        (is, sc + 1)
    else
      let (is, sc) := scanGo parse p rest taken
      (is, sc + 1)

/-- MockDynamoDbScanBuilder.execute over the stored items in insertion
order: count is the length of the returned items. -/
def scanExecute (parse : Item → Option Item) (p : ScanParams)
    (storage : List Item) : PaginatedResult :=
  let (is, sc) := scanGo parse p storage 0
  { items := is, count := is.length, scannedCount := sc }

/-- A sort-key condition of the query builder. -/
inductive SortKeyCondition where
  | cmp (op : String) (value : Value)
  | beginsWith (value : Value)
  | between (start finish : Value)

/-- The JavaScript relational operators on the sort-key values; the schema
constrains both operands to the same scalar type, so only the
string/string and number/number cases are modelled (a mixed comparison is
modelled as false). -/
def jsLt : Value → Value → Bool
  | .num a, .num b => decide (a < b)
  | .str a, .str b => decide (a.data < b.data)
  | _, _ => false

/-- Sort-key condition matching from MockDynamoDbQueryBuilder.execute; an
item without the sort-key attribute matches nothing. -/
def matchesSortKey (cond : SortKeyCondition) (skVal : Option Value) : Bool :=
  match skVal with
  | none => false
  | some v =>
    match cond with
    | .cmp op value =>
      match op with
      | "=" => v == value
      | ">" => jsLt value v
      | ">=" => !jsLt v value
      | "<" => jsLt v value
      | "<=" => !jsLt value v
      | _ => false
    | .beginsWith value =>
      (valueToString value).data.isPrefixOf (valueToString v).data
    | .between start finish => !jsLt v start && !jsLt finish v

/-- Parameters accumulated by MockDynamoDbQueryBuilder. -/
structure QueryParams where
  sortKeyCondition : Option SortKeyCondition := none
  filterExpression : Option String := none
  filterAttributeNames : Option NameMap := none
  filterAttributeValues : Option ValueMap := none
  limit : Option Nat := none
  scanIndexForward : Bool := true

/-- The query loop of MockDynamoDbQueryBuilder.execute: partition-key
equality, optional sort-key condition, filter, schema parse, limit. -/
def queryGo (svc : DbService) (pkValue : Value) (parse : Item → Option Item)
    (p : QueryParams) : List Item → Nat → List Item × Nat
  | [], _ => ([], 0)
  | item :: rest, taken =>
    if lookup item svc.partitionKey == some pkValue then
      let skOk :=
        match p.sortKeyCondition, svc.sortKey with
        | some c, some sk => matchesSortKey c (lookup item sk)
        | _, _ => true
      if skOk then
        if filterPasses p.filterExpression p.filterAttributeNames
            p.filterAttributeValues item then
          match parse item with
          | some parsedItem =>
            if limitHit p.limit (taken + 1) then ([parsedItem], 1)
            else
              let (is, sc) := queryGo svc pkValue parse p rest (taken + 1)
              (parsedItem :: is, sc + 1)
          | none =>
            let (is, sc) := queryGo svc pkValue parse p rest taken
            (is, sc + 1)
        else
          let (is, sc) := queryGo svc pkValue parse p rest taken
          (is, sc + 1)
      else
        let (is, sc) := queryGo svc pkValue parse p rest taken
        (is, sc + 1)
    else
      let (is, sc) := queryGo svc pkValue parse p rest taken
      (is, sc + 1)

/-- Stable insertion into a list sorted by le (equal elements keep their
relative order, as the stable Array.prototype.sort does). -/
def insertLe (le : Item → Item → Bool) (x : Item) : List Item → List Item
  | [] => [x]
  | y :: ys => if le y x then y :: insertLe le x ys else x :: y :: ys

/-- Stable insertion sort modelling the final comparator sort of
MockDynamoDbQueryBuilder.execute. -/
def sortItems (le : Item → Item → Bool) (l : List Item) : List Item :=
  l.foldr (insertLe le) []

/-- The comparator of the final sort: ascending on the sort-key value, or
descending after scanBackward. le a b means a may stay before b. -/
def querySortLe (sk : String) (forward : Bool) (a b : Item) : Bool :=
  let av := lookup a sk
  let bv := lookup b sk
  let lt :=
    match av, bv with
    | some x, some y => jsLt x y
    | _, _ => false
  let gt :=
    match av, bv with
    | some x, some y => jsLt y x
    | _, _ => false
  if forward then !gt else !lt

/-- MockDynamoDbQueryBuilder.execute: the loop, then the sort-key sort when
the table declares one. -/
def queryExecute (svc : DbService) (pkValue : Value)
    (parse : Item → Option Item) (p : QueryParams) (storage : List Item) :
    PaginatedResult :=
  let (is, sc) := queryGo svc pkValue parse p storage 0
  let sorted :=
    match svc.sortKey with
    | some sk => sortItems (querySortLe sk p.scanIndexForward) is
    | none => is
  { items := sorted, count := sorted.length, scannedCount := sc }

/-! ### The backend selection strategy (classResolver.ts) -/

/-- The two implementations the resolver chooses between. -/
inductive Impl where
  | prodImpl
  | testImpl
deriving DecidableEq, Repr

/-- String.prototype.toLowerCase, modelled characterwise (String.map on
the underlying characters; the signals involved are ASCII). -/
def jsToLower (s : String) : String := ⟨s.data.map Char.toLower⟩

/-- The NODE_ENV stage of classResolver: recognised production-like stages,
recognised development-like stages, unrecognised (console.warn then
production), absent (console.warn then production). The Boolean records
whether a warning was already logged by the caller. -/
def resolveNodeEnv (nodeEnv : Option String) (warned : Bool) : Impl × Bool :=
  match nodeEnv with
  | some ne =>
    match jsToLower ne with
    | "prod" => (.prodImpl, warned)
    | "production" => (.prodImpl, warned)
    | "staging" => (.prodImpl, warned)
    | "dev" => (.testImpl, warned)
    | "development" => (.testImpl, warned)
    | "test" => (.testImpl, warned)
    | _ => (.prodImpl, true)
  | none => (.prodImpl, true)

/-- classResolver from classResolver.ts as a pure function of the two
environment signals; the Boolean of the result records whether any warning
was logged. An unrecognised override logs a warning and falls through to
the NODE_ENV resolution. -/
def classResolver (override nodeEnv : Option String) : Impl × Bool :=
  match override with
  | some o =>
    match jsToLower o with
    | "test" => (.testImpl, false)
    | "prod" => (.prodImpl, false)
    | "production" => (.prodImpl, false)
    | _ => resolveNodeEnv nodeEnv true
  | none => resolveNodeEnv nodeEnv false

/-! ### The networked implementation's timestamp handling
(ProdDynamoDb.service.ts) -/

/-- The timestamp side effect of ProdDynamoDbService.putItem (lines
499-510): createdAt is set to now when the key is present with a falsy
value; updatedAt is set to now whenever the key is present. -/
def prodPutTimestamps (item : Item) (now : String) : Item :=
  let item1 :=
    match lookup item "createdAt" with
    | some v => if valFalsy v then setAttr item "createdAt" (.str now) else item
    | none => item
  match lookup item1 "updatedAt" with
  | some _ => setAttr item1 "updatedAt" (.str now)
  | none => item1

/-- ProdDynamoDbService.addTimestampToUpdateExpression: always binds the
aliases #updatedAt and :updatedAt, then either appends the assignment to
the existing SET clause (via the replace on
SET\s+(.+?)(?:\s+(ADD|REMOVE|DELETE)|$)) or prefixes a new SET clause. -/
def addTimestampToUpdateExpression (updateExpression : String)
    (expressionAttributeNames : Option NameMap)
    (expressionAttributeValues : Option ValueMap) (now : String) :
    String × NameMap × ValueMap :=
  let names := setAttr (expressionAttributeNames.getD []) "#updatedAt" "updatedAt"
  let values := setAttr (expressionAttributeValues.getD []) ":updatedAt" (.str now)
  if containsSub updateExpression.data "SET ".data then
    match findClauseMatch "SET".data ["ADD", "REMOVE", "DELETE"]
        updateExpression.data with
    | some (pre, setClause, term) =>
      let newSetClause := (trimList setClause).asString ++ ", #updatedAt = :updatedAt"
      let replaced :=
        match term with
        | some (kw, suffix) =>
          pre.asString ++ "SET " ++ newSetClause ++ " " ++ kw ++ suffix.asString
        | none => pre.asString ++ "SET " ++ newSetClause
      (replaced, names, values)
    | none => (updateExpression, names, values)
  else
    ("SET #updatedAt = :updatedAt " ++ updateExpression, names, values)

/-! ### Helper lemmas about the store primitives -/

theorem lookup_setAttr_self {α : Type} (m : List (String × α)) (k : String)
    (v : α) : lookup (setAttr m k v) k = some v := by
  induction m with
  | nil => simp [setAttr, lookup]
  | cons p rest ih =>
    obtain ⟨k', v'⟩ := p
    by_cases h : k' = k
    · simp [setAttr, h, lookup]
    · simp [setAttr, h, lookup, ih]

theorem lookup_setAttr_ne {α : Type} (m : List (String × α)) (k k9 : String)
    (v : α) (h : k9 ≠ k) : lookup (setAttr m k v) k9 = lookup m k9 := by
  induction m with
  | nil => simp [setAttr, lookup, if_neg (Ne.symm h)]
  | cons p rest ih =>
    obtain ⟨k₀, v₀⟩ := p
    by_cases h0 : k₀ = k
    · subst h0
      simp [setAttr, lookup, if_neg (Ne.symm h)]
    · simp [setAttr, h0, lookup, ih]

theorem mapGet_mapSet_self (st : Store) (k : String) (v : Item) :
    mapGet (mapSet st k v) k = some v :=
  lookup_setAttr_self st k v

theorem lookup_eq_none_of_not_mem {α : Type} (m : List (String × α))
    (k : String) (h : k ∉ m.map Prod.fst) : lookup m k = none := by
  induction m with
  | nil => simp [lookup]
  | cons p rest ih =>
    obtain ⟨k₀, v₀⟩ := p
    simp only [List.map_cons, List.mem_cons] at h
    push_neg at h
    simp only [lookup, if_neg (Ne.symm h.1)]
    exact ih h.2

/-- A JavaScript Map never holds duplicate keys, so deleting a key makes a
subsequent get miss; the Nodup hypothesis is the Map representation
invariant of the association list. -/
theorem mapGet_mapDelete_self (st : Store) (k : String)
    (hnodup : (st.map Prod.fst).Nodup) :
    mapGet (mapDelete st k) k = none := by
  induction st with
  | nil => simp [mapDelete, mapGet, lookup]
  | cons p rest ih =>
    obtain ⟨k₀, v₀⟩ := p
    simp only [List.map_cons, List.nodup_cons] at hnodup
    by_cases h0 : k₀ = k
    · subst h0
      simp only [mapDelete, if_pos rfl]
      exact lookup_eq_none_of_not_mem rest k₀ hnodup.1
    · simp only [mapDelete, if_neg h0, mapGet, lookup, if_neg h0]
      exact ih hnodup.2

theorem mem_keys_setAttr {α : Type} (m : List (String × α)) (k k9 : String)
    (v : α) (h : k9 ∈ (setAttr m k v).map Prod.fst) :
    k9 ∈ m.map Prod.fst ∨ k9 = k := by
  induction m with
  | nil =>
    simp only [setAttr, List.map_cons, List.map_nil, List.mem_singleton] at h
    exact Or.inr h
  | cons p rest ih =>
    obtain ⟨k₀, v₀⟩ := p
    by_cases h0 : k₀ = k
    · subst h0
      simp only [setAttr, if_pos rfl, eq_self_iff_true, if_true,
        List.map_cons, List.mem_cons] at h
      rcases h with h1 | h1
      · exact Or.inr h1
      · exact Or.inl (by simp only [List.map_cons, List.mem_cons]; exact Or.inr h1)
    · simp only [setAttr, if_neg h0, List.map_cons, List.mem_cons] at h
      rcases h with h1 | h1
      · exact Or.inl (by simp only [List.map_cons, List.mem_cons]; exact Or.inl h1)
      · rcases ih h1 with h2 | h2
        · exact Or.inl (by simp only [List.map_cons, List.mem_cons]; exact Or.inr h2)
        · exact Or.inr h2

/-- Map.set preserves the unique-keys invariant. -/
theorem nodup_keys_setAttr {α : Type} (m : List (String × α)) (k : String)
    (v : α) (h : (m.map Prod.fst).Nodup) :
    ((setAttr m k v).map Prod.fst).Nodup := by
  induction m with
  | nil => simp [setAttr]
  | cons p rest ih =>
    obtain ⟨k₀, v₀⟩ := p
    simp only [List.map_cons, List.nodup_cons] at h
    by_cases h0 : k₀ = k
    · subst h0
      simpa [setAttr] using h
    · simp only [setAttr, if_neg h0, List.map_cons, List.nodup_cons]
      refine ⟨?_, ih h.2⟩
      intro hmem
      rcases mem_keys_setAttr rest k k₀ v hmem with h2 | h2
      · exact h.1 h2
      · exact h0 h2

/-! ### Lemmas about the scan and query loops -/

theorem scanGo_len_le_scanned (parse : Item → Option Item) (p : ScanParams) :
    ∀ (l : List Item) (taken : Nat),
      (scanGo parse p l taken).1.length ≤ (scanGo parse p l taken).2 := by
  intro l
  induction l with
  | nil => intro taken; simp [scanGo]
  | cons item rest ih =>
    intro taken
    simp only [scanGo]
    by_cases hf : filterPasses p.filterExpression p.filterAttributeNames
        p.filterAttributeValues item = true
    · rw [if_pos hf]
      cases hp : parse item with
      | some t =>
        dsimp only
        by_cases hl : limitHit p.limit (taken + 1) = true
        · rw [if_pos hl]
          simp
        · rw [if_neg hl]
          have := ih (taken + 1)
          rcases hsg : scanGo parse p rest (taken + 1) with ⟨is, sc⟩
          rw [hsg] at this
          simpa using Nat.succ_le_succ this
      | none =>
        dsimp only
        have := ih taken
        rcases hsg : scanGo parse p rest taken with ⟨is, sc⟩
        rw [hsg] at this
        simpa using Nat.le_succ_of_le this
    · rw [if_neg hf]
      have := ih taken
      rcases hsg : scanGo parse p rest taken with ⟨is, sc⟩
      rw [hsg] at this
      simpa using Nat.le_succ_of_le this

theorem queryGo_len_le_scanned (svc : DbService) (pkValue : Value)
    (parse : Item → Option Item) (p : QueryParams) :
    ∀ (l : List Item) (taken : Nat),
      (queryGo svc pkValue parse p l taken).1.length ≤
        (queryGo svc pkValue parse p l taken).2 := by
  intro l
  induction l with
  | nil => intro taken; simp [queryGo]
  | cons item rest ih =>
    intro taken
    simp only [queryGo]
    by_cases hpk : (lookup item svc.partitionKey == some pkValue) = true
    · rw [if_pos hpk]
      by_cases hsk : (match p.sortKeyCondition, svc.sortKey with
          | some c, some sk => matchesSortKey c (lookup item sk)
          | _, _ => true) = true
      · rw [if_pos hsk]
        by_cases hf : filterPasses p.filterExpression p.filterAttributeNames
            p.filterAttributeValues item = true
        · rw [if_pos hf]
          cases hp : parse item with
          | some t =>
            dsimp only
            by_cases hl : limitHit p.limit (taken + 1) = true
            · rw [if_pos hl]
              simp
            · rw [if_neg hl]
              have := ih (taken + 1)
              rcases hsg : queryGo svc pkValue parse p rest (taken + 1) with ⟨is, sc⟩
              rw [hsg] at this
              simpa using Nat.succ_le_succ this
          | none =>
            dsimp only
            have := ih taken
            rcases hsg : queryGo svc pkValue parse p rest taken with ⟨is, sc⟩
            rw [hsg] at this
            simpa using Nat.le_succ_of_le this
        · rw [if_neg hf]
          have := ih taken
          rcases hsg : queryGo svc pkValue parse p rest taken with ⟨is, sc⟩
          rw [hsg] at this
          simpa using Nat.le_succ_of_le this
      · rw [if_neg hsk]
        have := ih taken
        rcases hsg : queryGo svc pkValue parse p rest taken with ⟨is, sc⟩
        rw [hsg] at this
        simpa using Nat.le_succ_of_le this
    · rw [if_neg hpk]
      have := ih taken
      rcases hsg : queryGo svc pkValue parse p rest taken with ⟨is, sc⟩
      rw [hsg] at this
      simpa using Nat.le_succ_of_le this

theorem insertLe_length (le : Item → Item → Bool) (x : Item) :
    ∀ l : List Item, (insertLe le x l).length = l.length + 1 := by
  intro l
  induction l with
  | nil => simp [insertLe]
  | cons y ys ih =>
    simp only [insertLe]
    by_cases h : le y x = true
    · rw [if_pos h]
      simp [ih]
    · rw [if_neg h]
      simp

theorem sortItems_length (le : Item → Item → Bool) (l : List Item) :
    (sortItems le l).length = l.length := by
  induction l with
  | nil => rfl
  | cons y ys ih =>
    simp only [sortItems, List.foldr_cons]
    rw [insertLe_length]
    simp only [sortItems] at ih
    rw [ih]
    simp

/-- C7: both builders produce count equal to the number of returned items
(after filtering and limiting) and a scannedCount that is at least count,
counting every item inspected before filter or limit applied; a filtered
scan over a table with two matching items and one non-matching item
returns exactly the two matching items with scannedCount three. -/
theorem count_and_scannedCount_spec :
    (∀ (parse : Item → Option Item) (p : ScanParams) (storage : List Item),
       (scanExecute parse p storage).count =
         (scanExecute parse p storage).items.length ∧
       (scanExecute parse p storage).count ≤
         (scanExecute parse p storage).scannedCount)
  ∧ (∀ (svc : DbService) (pkValue : Value) (parse : Item → Option Item)
       (p : QueryParams) (storage : List Item),
       (queryExecute svc pkValue parse p storage).count =
         (queryExecute svc pkValue parse p storage).items.length ∧
       (queryExecute svc pkValue parse p storage).count ≤
         (queryExecute svc pkValue parse p storage).scannedCount)
  ∧ scanExecute (fun i => some i)
      { filterExpression := some "#status = :status",
        filterAttributeNames := some [("#status", "status")],
        filterAttributeValues := some [(":status", .str "active")] }
      [[("userId", .str "a"), ("status", .str "active")],
       [("userId", .str "b"), ("status", .str "inactive")],
       [("userId", .str "c"), ("status", .str "active")]] =
      { items := [[("userId", .str "a"), ("status", .str "active")],
                  [("userId", .str "c"), ("status", .str "active")]],
        count := 2, scannedCount := 3 } := by
  refine ⟨?_, ?_, ?_⟩
  · intro parse p storage
    constructor
    · rfl
    · have := scanGo_len_le_scanned parse p storage 0
      simp only [scanExecute]
      rcases hsg : scanGo parse p storage 0 with ⟨is, sc⟩
      rw [hsg] at this
      simpa using this
  · intro svc pkValue parse p storage
    constructor
    · rfl
    · have := queryGo_len_le_scanned svc pkValue parse p storage 0
      simp only [queryExecute]
      rcases hsg : queryGo svc pkValue parse p storage 0 with ⟨is, sc⟩
      rw [hsg] at this
      cases hks : svc.sortKey with
      | none => simpa [hks] using this
      | some sk =>
        simp only [hks]
        rw [sortItems_length]
        simpa using this
  · rfl

/-- C9: a stored item that the schema validator rejects is silently omitted
from the returned items and from count by both the query and the scan
execute, while still being counted in scannedCount; no error is raised (the
execute functions are total and return a result). -/
theorem invalid_item_skipped_spec :
    (∀ (parse : Item → Option Item) (p : ScanParams) (bad : Item)
       (storage : List Item), parse bad = none →
       filterPasses p.filterExpression p.filterAttributeNames
         p.filterAttributeValues bad = true →
       scanExecute parse p (bad :: storage) =
         { items := (scanExecute parse p storage).items,
           count := (scanExecute parse p storage).count,
           scannedCount := (scanExecute parse p storage).scannedCount + 1 })
  ∧ (∀ (svc : DbService) (pkValue : Value) (parse : Item → Option Item)
       (p : QueryParams) (bad : Item) (storage : List Item),
       parse bad = none →
       queryExecute svc pkValue parse p (bad :: storage) =
         { items := (queryExecute svc pkValue parse p storage).items,
           count := (queryExecute svc pkValue parse p storage).count,
           scannedCount :=
             (queryExecute svc pkValue parse p storage).scannedCount + 1 }) := by
  constructor
  · intro parse p bad storage hbad hfil
    simp only [scanExecute, scanGo, if_pos hfil, hbad]
  · intro svc pkValue parse p bad storage hbad
    simp only [queryExecute, queryGo]
    by_cases hpk : (lookup bad svc.partitionKey == some pkValue) = true
    · rw [if_pos hpk]
      by_cases hsk : (match p.sortKeyCondition, svc.sortKey with
          | some c, some sk => matchesSortKey c (lookup bad sk)
          | _, _ => true) = true
      · rw [if_pos hsk]
        by_cases hf : filterPasses p.filterExpression p.filterAttributeNames
            p.filterAttributeValues bad = true
        · rw [if_pos hf, hbad]
        · rw [if_neg hf]
      · rw [if_neg hsk]
    · rw [if_neg hpk]

/-- C9 witness: the concluding equation of the claim theorem at a concrete
store whose middle item fails validation. -/
theorem invalid_item_skipped_witness :
    scanExecute (fun i => if lookup i "ok" == some (.bool true) then some i else none)
      {} ([("ok", .bool false)] :: [[("ok", .bool true)]]) =
      { items := [[("ok", .bool true)]], count := 1, scannedCount := 2 } := by
  have h := invalid_item_skipped_spec.1
    (fun i => if lookup i "ok" == some (.bool true) then some i else none)
    {} [("ok", .bool false)] [[("ok", .bool true)]] (by rfl) (by rfl)
  rw [h]
  rfl

/-! ### Correctness of batchWrite sequencing (claim C10) -/

/-- C10: the emulator's batchWrite applies its operations strictly
sequentially in array order by delegating to putItem and deleteItem (with
no chunking of any size and no rollback): whenever the operations up to
some position succeed and the next operation deletes a key absent at that
point, batchWrite raises NotFound there and the store keeps exactly the
effects of the earlier operations. -/
theorem batchWrite_sequential_spec (svc : DbService) :
    ∀ (ops1 : List BatchOp) (st st' : Store) (k : Item) (ops2 : List BatchOp),
      batchWrite svc st ops1 = (.ok (), st') →
      mapGet st' (serializeKey (buildKey svc k)) = none →
      batchWrite svc st (ops1 ++ BatchOp.delete k :: ops2) =
        (.error .notFound, st') := by
  intro ops1
  induction ops1 with
  | nil =>
    intro st st' k ops2 h1 h2
    simp only [batchWrite] at h1
    have hst : st = st' := congrArg Prod.snd h1
    subst hst
    simp only [List.nil_append, batchWrite, deleteItem, h2]
  | cons op rest ih =>
    intro st st' k ops2 h1 h2
    cases op with
    | put item =>
      simp only [batchWrite] at h1 ⊢
      rcases hput : putItem svc st item {} with ⟨r, st₁⟩
      rw [hput] at h1
      cases r with
      | ok v =>
        exact ih st₁ st' k ops2 h1 h2
      | error e =>
        exact absurd (congrArg Prod.fst h1) (by simp)
    | delete key =>
      simp only [batchWrite] at h1 ⊢
      rcases hdel : deleteItem svc st key {} with ⟨r, st₁⟩
      rw [hdel] at h1
      cases r with
      | ok v =>
        exact ih st₁ st' k ops2 h1 h2
      | error e =>
        exact absurd (congrArg Prod.fst h1) (by simp)

/-- C10 witness: a batch of one successful put followed by a delete of an
absent key raises NotFound and keeps the put applied. -/
theorem batchWrite_sequential_witness :
    batchWrite
      { partitionKey := "userId", sortKey := none, parse := fun i => some i }
      [] [BatchOp.put [("userId", .str "u1")],
          BatchOp.delete [("userId", .str "zz")]] =
      (.error .notFound,
       [(serializeKey [("userId", .str "u1")],
         [("userId", .str "u1")])]) := by
  have h := batchWrite_sequential_spec
    { partitionKey := "userId", sortKey := none, parse := fun i => some i }
    [BatchOp.put [("userId", .str "u1")]] []
    [(serializeKey [("userId", .str "u1")], [("userId", .str "u1")])]
    [("userId", .str "zz")] [] (by rfl) (by rfl)
  exact h

/-! ### Delete/get round trip and the NotFound condition (claim C8) -/

/-- validateAndParseItem can only throw the validation error. -/
theorem validateAndParseItem_error (svc : DbService) (item : Item)
    (e : DbError) (h : validateAndParseItem svc item = .error e) :
    e = .validationFailed := by
  unfold validateAndParseItem at h
  cases hp : svc.parse item with
  | some t =>
    rw [hp] at h
    exact absurd h (by simp)
  | none =>
    rw [hp] at h
    injection h with h
    exact h.symm

/-- C8: after putItem stores an item, deleteItem on its key succeeds and a
subsequent getItem returns absent (a normal value, not an error); deleting
the same key again raises NotFound; and deleteItem raises NotFound exactly
when the key is absent from the store. The Nodup hypothesis is the
unique-keys representation invariant of the JavaScript Map. -/
theorem deleteItem_notFound_spec (svc : DbService) :
    (∀ (st st' : Store) (v : Option Item) (I : Item),
       (st.map Prod.fst).Nodup →
       putItem svc st I {} = (.ok v, st') →
       deleteItem svc st' I {} =
         (.ok none, mapDelete st' (serializeKey (buildKey svc I))) ∧
       getItem svc (mapDelete st' (serializeKey (buildKey svc I))) I = .ok none ∧
       (deleteItem svc (mapDelete st' (serializeKey (buildKey svc I))) I {}).1 =
         .error .notFound)
  ∧ (∀ (st : Store) (k : Item) (opts : WriteOptions),
       ((deleteItem svc st k opts).1 = Except.error .notFound ↔
         mapGet st (serializeKey (buildKey svc k)) = none)) := by
  constructor
  · intro st st' v I hnodup hput
    simp only [putItem] at hput
    rw [show evaluateCondition (mapGet st (serializeKey (buildKey svc I)))
        (WriteOptions.conditionExpression {})
        (WriteOptions.expressionAttributeNames {})
        (WriteOptions.expressionAttributeValues {}) = true from rfl,
      if_pos rfl] at hput
    cases hparse : validateAndParseItem svc I with
    | error e =>
      rw [hparse] at hput
      exact absurd (congrArg Prod.fst hput) (by simp)
    | ok t =>
      rw [hparse] at hput
      rw [show (WriteOptions.returnValues {} == some "ALL_OLD") = false from rfl] at hput
      simp only [Bool.false_eq_true, if_neg] at hput
      have hst' : st' = mapSet st (serializeKey (buildKey svc I)) I :=
        (congrArg Prod.snd hput).symm
      subst hst'
      have h1 : mapGet (mapSet st (serializeKey (buildKey svc I)) I)
          (serializeKey (buildKey svc I)) = some I :=
        mapGet_mapSet_self st (serializeKey (buildKey svc I)) I
      have h2 : mapGet (mapDelete
          (mapSet st (serializeKey (buildKey svc I)) I)
          (serializeKey (buildKey svc I))) (serializeKey (buildKey svc I)) = none :=
        mapGet_mapDelete_self _ _
          (nodup_keys_setAttr st (serializeKey (buildKey svc I)) I hnodup)
      refine ⟨?_, ?_, ?_⟩
      · simp only [deleteItem, h1]
        rfl
      · simp only [getItem, h2]
      · simp only [deleteItem, h2]
  · intro st k opts
    cases hg : mapGet st (serializeKey (buildKey svc k)) with
    | none => simp [deleteItem, hg]
    | some ex =>
      simp only [deleteItem, hg]
      constructor
      · intro h
        exfalso
        revert h
        split
        · split
          · split
            · simp
            · rename_i x e heq
              have he := validateAndParseItem_error _ _ _ heq
              subst he
              simp
          · simp
        · simp
      · intro h
        simp at h

/-- C8 witness: the round trip on a singleton service and the iff at an
empty and a populated store. -/
theorem deleteItem_notFound_witness :
    getItem
      { partitionKey := "userId", sortKey := none, parse := fun i => some i }
      (mapDelete
        (putItem
          { partitionKey := "userId", sortKey := none, parse := fun i => some i }
          [] [("userId", .str "u1")] {}).2
        (serializeKey (buildKey
          { partitionKey := "userId", sortKey := none, parse := fun i => some i }
          [("userId", .str "u1")])))
      [("userId", .str "u1")] = .ok none ∧
    ((deleteItem
        { partitionKey := "userId", sortKey := none, parse := fun i => some i }
        [] [("userId", .str "u1")] {}).1 = Except.error .notFound ↔
      mapGet ([] : Store) (serializeKey (buildKey
        { partitionKey := "userId", sortKey := none, parse := fun i => some i }
        [("userId", .str "u1")])) = none) := by
  constructor
  · exact ((deleteItem_notFound_spec
      { partitionKey := "userId", sortKey := none, parse := fun i => some i }).1
      [] _ none [("userId", .str "u1")] (by simp) (by rfl)).2.1
  · exact (deleteItem_notFound_spec
      { partitionKey := "userId", sortKey := none, parse := fun i => some i }).2
      [] [("userId", .str "u1")] {}

/-! ### Fail-closed behaviour of the condition evaluator (claim C5) -/

/-- Spec-side predicate: both resolved operands are numbers. -/
def bothNumeric : Option Value → Option Value → Bool
  | some (.num _), some (.num _) => true
  | _, _ => false

/-- Spec-side predicate: both resolved operands are strings. -/
def bothString : Option Value → Option Value → Bool
  | some (.str _), some (.str _) => true
  | _, _ => false

theorem orderingCmp_eq_false (op : String) (a e : Option Value)
    (hn : bothNumeric a e = false) (hs : bothString a e = false) :
    orderingCmp op a e = false := by
  unfold orderingCmp
  split
  · rename_i x y
    simp [bothNumeric] at hn
  · rename_i x y
    simp [bothString] at hs
  · rfl

/-- C5: the emulator's condition evaluator is fail-closed — an absent
condition expression is vacuously true; a nonempty expression in which none
of the recognised forms fires (no top-level AND or OR, no
attribute_not_exists or attribute_exists capture, no binary comparison
match) evaluates to false; and a matched ordering comparison whose resolved
operands are not both numbers and not both strings evaluates to false. The
evaluator is a total Lean function, so it never throws. -/
theorem evaluateCondition_fail_closed :
    (∀ (item : Option Item) (names : Option NameMap) (values : Option ValueMap),
       evaluateCondition item none names values = true)
  ∧ (∀ (item : Option Item) (names : Option NameMap) (values : Option ValueMap)
       (s : String), s ≠ "" →
       containsSub s.data " AND ".data = false →
       containsSub s.data " OR ".data = false →
       findCapture "attribute_not_exists(".data s.data = none →
       findCapture "attribute_exists(".data s.data = none →
       findComparison s.data = none →
       evaluateCondition item (some s) names values = false)
  ∧ (∀ (it : Item) (nm : NameMap) (vl : ValueMap) (s a op v : String),
       s ≠ "" →
       containsSub s.data " AND ".data = false →
       containsSub s.data " OR ".data = false →
       findCapture "attribute_not_exists(".data s.data = none →
       findCapture "attribute_exists(".data s.data = none →
       findComparison s.data = some (a, op, v) →
       op ≠ "=" →
       bothNumeric (lookup it (resolveName (some nm) a)) (lookup vl v) = false →
       bothString (lookup it (resolveName (some nm) a)) (lookup vl v) = false →
       evaluateCondition (some it) (some s) (some nm) (some vl) = false) := by
  refine ⟨?_, ?_, ?_⟩
  · intro item names values
    rfl
  · intro item names values s hne hand hor hnex hex hcomp
    have h0 : (s == "") = false := by
      simpa using hne
    simp only [evaluateCondition, evalCondGo, h0, hand, hor, Bool.false_eq_true,
      if_false]
    simp only [evalAtom, hcomp]
    cases hc1 : containsSub s.data "attribute_not_exists".data <;>
      cases hc2 : containsSub s.data "attribute_exists".data <;>
        simp [hnex, hex]
  · intro it nm vl s a op v hne hand hor hnex hex hcomp hop hn hs
    have h0 : (s == "") = false := by
      simpa using hne
    have hopb : (op == "=") = false := by
      simpa using hop
    simp only [evaluateCondition, evalCondGo, h0, hand, hor, Bool.false_eq_true,
      if_false]
    simp only [evalAtom, hcomp]
    cases hc1 : containsSub s.data "attribute_not_exists".data <;>
      cases hc2 : containsSub s.data "attribute_exists".data <;>
        simp [hnex, hex, hopb, orderingCmp_eq_false op _ _ hn hs]

/-- C5 witness: an unrecognised expression form and a type-mismatched
ordering comparison both evaluate to false at concrete inputs. -/
theorem evaluateCondition_fail_closed_witness :
    evaluateCondition (some [("a", .num 1)]) (some "gibberish expression")
      none none = false ∧
    evaluateCondition (some [("a", .num 1)]) (some "#a > :v")
      (some [("#a", "a")]) (some [(":v", .str "x")]) = false := by
  constructor
  · exact evaluateCondition_fail_closed.2.1 (some [("a", .num 1)]) none none
      "gibberish expression" (by decide) rfl rfl rfl rfl rfl
  · exact evaluateCondition_fail_closed.2.2 [("a", .num 1)] [("#a", "a")]
      [(":v", .str "x")] "#a > :v" "#a" ">" ":v" (by decide) rfl rfl rfl rfl
      rfl (by decide) rfl rfl

/-! ### The backend selection strategy (claim C3) -/

theorem resolveNodeEnv_snd_true (ne : Option String) :
    (resolveNodeEnv ne true).2 = true := by
  unfold resolveNodeEnv
  cases ne with
  | none => rfl
  | some s =>
    dsimp only
    split <;> rfl

theorem resolveNodeEnv_fst_warn (ne : Option String) :
    (resolveNodeEnv ne true).1 = (resolveNodeEnv ne false).1 := by
  unfold resolveNodeEnv
  cases ne with
  | none => rfl
  | some s =>
    dsimp only
    split <;> rfl

theorem classResolver_unrec_override (o : String) (ne : Option String)
    (h1 : jsToLower o ≠ "test") (h2 : jsToLower o ≠ "prod")
    (h3 : jsToLower o ≠ "production") :
    classResolver (some o) ne = resolveNodeEnv ne true := by
  unfold classResolver
  dsimp only
  split
  · rename_i heq
    exact absurd heq h1
  · rename_i heq
    exact absurd heq h2
  · rename_i heq
    exact absurd heq h3
  · rfl

/-- C3 counterexample: with the override signal set to the unrecognised
value bogus and the stage signal set to test, classResolver logs a warning
but selects the emulated (test) implementation, not the networked one as
the claim states. -/
theorem classResolver_counterexample :
    classResolver (some "bogus") (some "test") = (.testImpl, true) ∧
    Impl.testImpl ≠ Impl.prodImpl := by
  constructor
  · rfl
  · decide

/-- C3 (amended): classResolver is a pure function of its two signals; an
unrecognised override logs a warning and falls through to the stage-signal
resolution (its implementation choice equals the choice made with no
override), and when both signals are absent it selects the networked
implementation with a warning. -/
theorem classResolver_spec :
    (∀ (o : String) (ne : Option String),
       jsToLower o ≠ "test" → jsToLower o ≠ "prod" → jsToLower o ≠ "production" →
       (classResolver (some o) ne).1 = (classResolver none ne).1 ∧
       (classResolver (some o) ne).2 = true)
  ∧ classResolver none none = (.prodImpl, true) := by
  constructor
  · intro o ne h1 h2 h3
    rw [classResolver_unrec_override o ne h1 h2 h3]
    constructor
    · rw [show classResolver none ne = resolveNodeEnv ne false from rfl]
      exact resolveNodeEnv_fst_warn ne
    · exact resolveNodeEnv_snd_true ne
  · rfl

/-- C3 witness: the amended behaviour at the concrete unrecognised override
bogus with an absent stage signal. -/
theorem classResolver_spec_witness :
    (classResolver (some "bogus") none).1 = (classResolver none none).1 ∧
    (classResolver (some "bogus") none).2 = true :=
  classResolver_spec.1 "bogus" none (by decide) (by decide) (by decide)

/-! ### transactWrite semantics (claim C2) -/

/-- A concrete single-attribute-key service whose validator accepts every
item unchanged, used by the concrete instances below. -/
def userSvc : DbService :=
  { partitionKey := "userId", sortKey := none, parse := fun i => some i }

theorem txPhase2_cons (svc : DbService) (st : Store) (op : TxOp)
    (rest : List TxOp) :
    txPhase2 svc st (op :: rest) =
      match txPhase2 svc st [op] with
      | (.ok _, st₁) => txPhase2 svc st₁ rest
      | (.error e, st₁) => (.error e, st₁) := by
  cases hop : op.operation with
  | put =>
    simp only [txPhase2, hop]
    cases op.item with
    | some item =>
      dsimp only
      rcases hr : putItem svc st item
        { conditionExpression := op.conditionExpression,
          expressionAttributeNames := op.expressionAttributeNames,
          expressionAttributeValues := op.expressionAttributeValues } with ⟨r, st₁⟩
      cases r <;> rfl
    | none => rfl
  | update =>
    simp only [txPhase2, hop]
    cases hk : op.key with
    | some k =>
      cases hu : op.updateExpression with
      | some ue =>
        dsimp only
        by_cases hue : (ue == "") = true
        · simp only [if_pos hue]
        · simp only [if_neg hue]
          rcases hr : updateItem svc st k
            { updateExpression := ue,
              conditionExpression := op.conditionExpression,
              expressionAttributeNames := op.expressionAttributeNames,
              expressionAttributeValues := op.expressionAttributeValues } with ⟨r, st₁⟩
          cases r <;> rfl
      | none => rfl
    | none =>
      cases op.updateExpression <;> rfl
  | delete =>
    simp only [txPhase2, hop]
    cases op.key with
    | some k =>
      dsimp only
      rcases hr : deleteItem svc st k
        { conditionExpression := op.conditionExpression,
          expressionAttributeNames := op.expressionAttributeNames,
          expressionAttributeValues := op.expressionAttributeValues } with ⟨r, st₁⟩
      cases r <;> rfl
    | none => rfl
  | conditionCheck =>
    simp only [txPhase2, hop]

theorem txPhase2_append (svc : DbService) :
    ∀ (ops1 : List TxOp) (st st' : Store) (l : List TxOp),
      txPhase2 svc st ops1 = (.ok (), st') →
      txPhase2 svc st (ops1 ++ l) = txPhase2 svc st' l := by
  intro ops1
  induction ops1 with
  | nil =>
    intro st st' l h
    have hst : st = st' := congrArg Prod.snd h
    subst hst
    rfl
  | cons op rest ih =>
    intro st st' l h
    rw [txPhase2_cons] at h
    rw [List.cons_append, txPhase2_cons]
    rcases ho : txPhase2 svc st [op] with ⟨r, st₁⟩
    rw [ho] at h
    cases r with
    | ok u =>
      exact ih st₁ st' l h
    | error e =>
      exact absurd (congrArg Prod.fst h) (by simp)

/-- C2 counterexample: a transactWrite of two conditional puts where the
key of the second already exists applies the first put (the store gains the
new key) and raises ConditionalCheckFailed, not TransactionCancelled, so
the group is not all-or-nothing for conditions attached to puts. -/
theorem transactWrite_counterexample :
    transactWrite userSvc
      [(serializeKey [("userId", Value.str "u1")], [("userId", Value.str "u1")])]
      [{ operation := .put, item := some [("userId", Value.str "u2")],
         conditionExpression := some "attribute_not_exists(userId)" },
       { operation := .put, item := some [("userId", Value.str "u1")],
         conditionExpression := some "attribute_not_exists(userId)" }] =
      (.error .conditionalCheckFailed,
       [(serializeKey [("userId", Value.str "u1")], [("userId", Value.str "u1")]),
        (serializeKey [("userId", Value.str "u2")], [("userId", Value.str "u2")])]) ∧
    mapGet
      [(serializeKey [("userId", Value.str "u1")], [("userId", Value.str "u1")]),
       (serializeKey [("userId", Value.str "u2")], [("userId", Value.str "u2")])]
      (serializeKey [("userId", Value.str "u2")]) =
      some [("userId", Value.str "u2")] ∧
    DbError.conditionalCheckFailed ≠ DbError.transactionCancelled := by
  refine ⟨rfl, rfl, by decide⟩

/-- C2 (amended): the emulator pre-evaluates only the conditions of
conditionCheck operations against the state at call start — when one fails
the transaction raises that error with no mutation at all; conditions
attached to put, update and delete operations are evaluated only when the
operation is applied in sequence, so when an operation fails (leaving the
store as it was just before it) every operation earlier in the list remains
applied and the raised error is the failing operation's own error, not
TransactionCancelled. -/
theorem transactWrite_spec (svc : DbService) :
    (∀ (st : Store) (ops : List TxOp) (e : DbError),
       txPhase1 svc st ops = some e →
       transactWrite svc st ops = (.error e, st))
  ∧ (∀ (st : Store) (ops : List TxOp),
       txPhase1 svc st ops = none →
       transactWrite svc st ops = txPhase2 svc st ops)
  ∧ (∀ (ops1 : List TxOp) (st st' : Store) (op : TxOp) (ops2 : List TxOp)
       (e : DbError),
       txPhase1 svc st (ops1 ++ op :: ops2) = none →
       txPhase2 svc st ops1 = (.ok (), st') →
       txPhase2 svc st' [op] = (.error e, st') →
       transactWrite svc st (ops1 ++ op :: ops2) = (.error e, st')) := by
  refine ⟨?_, ?_, ?_⟩
  · intro st ops e h
    simp only [transactWrite, h]
  · intro st ops h
    simp only [transactWrite, h]
  · intro ops1 st st' op ops2 e hph1 hok hfail
    simp only [transactWrite, hph1]
    rw [txPhase2_append svc ops1 st st' (op :: ops2) hok, txPhase2_cons, hfail]

/-- C2 witness: the amended theorem applied to the counterexample group —
the first put succeeds, the second fails at apply time, the result keeps
the first put and raises ConditionalCheckFailed. -/
theorem transactWrite_spec_witness :
    transactWrite userSvc
      [(serializeKey [("userId", Value.str "u1")], [("userId", Value.str "u1")])]
      ([{ operation := .put, item := some [("userId", Value.str "u2")],
          conditionExpression := some "attribute_not_exists(userId)" }] ++
       { operation := .put, item := some [("userId", Value.str "u1")],
         conditionExpression := some "attribute_not_exists(userId)" } :: []) =
      (.error .conditionalCheckFailed,
       [(serializeKey [("userId", Value.str "u1")], [("userId", Value.str "u1")]),
        (serializeKey [("userId", Value.str "u2")], [("userId", Value.str "u2")])]) := by
  exact (transactWrite_spec userSvc).2.2
    [{ operation := .put, item := some [("userId", Value.str "u2")],
       conditionExpression := some "attribute_not_exists(userId)" }]
    [(serializeKey [("userId", Value.str "u1")], [("userId", Value.str "u1")])]
    [(serializeKey [("userId", Value.str "u1")], [("userId", Value.str "u1")]),
     (serializeKey [("userId", Value.str "u2")], [("userId", Value.str "u2")])]
    { operation := .put, item := some [("userId", Value.str "u1")],
      conditionExpression := some "attribute_not_exists(userId)" }
    [] .conditionalCheckFailed rfl rfl rfl

/-! ### ADD clause semantics (claim C6) -/

/-- Spec-side predicate: the resolved addend is a number. -/
def isNumValue : Option Value → Bool
  | some (.num _) => true
  | _ => false

/-- C6 counterexample: an ADD whose prior value is the string abc and whose
addend is the number 5 overwrites the string with 5 (treating the
non-numeric prior as 0) instead of being a no-op as the claim states. -/
theorem applyAdd_counterexample :
    applyUpdateExpression [("userId", .str "u"), ("x", .str "abc")] "ADD x :v"
      none (some [(":v", .num 5)]) =
      [("userId", .str "u"), ("x", .num 5)] ∧
    Value.num 5 ≠ Value.str "abc" := by
  refine ⟨rfl, by decide⟩

/-- C6 (amended): an ADD assignment is applied exactly when the addend
resolves to a number — it produces prior + addend where the prior
contributes only when the existing value is numeric and otherwise defaults
to 0 (overwriting a non-numeric existing value); when the addend is not
numeric the assignment is a no-op for that attribute. -/
theorem applyAdd_numeric_spec :
    (∀ (names : Option NameMap) (values : Option ValueMap) (it : Item)
       (a attrPath valuePath : List Char),
       splitWs a = [attrPath, valuePath] →
       isNumValue (lookupOpt values valuePath.asString) = false →
       applyAddAssignment names values it a = it)
  ∧ (∀ (names : Option NameMap) (values : Option ValueMap) (it : Item)
       (a attrPath valuePath : List Char) (n : Int),
       splitWs a = [attrPath, valuePath] →
       lookupOpt values valuePath.asString = some (.num n) →
       applyAddAssignment names values it a =
         setAttr it (resolveName names attrPath.asString)
           (.num ((match lookup it (resolveName names attrPath.asString) with
                   | some (.num m) => m
                   | _ => 0) + n)))
  ∧ applyUpdateExpression [("userId", .str "u"), ("age", .num 30)]
      "ADD #age :increment" (some [("#age", "age")])
      (some [(":increment", .num 5)]) =
      [("userId", .str "u"), ("age", .num 35)] := by
  refine ⟨?_, ?_, rfl⟩
  · intro names values it a attrPath valuePath hsplit hnum
    simp only [applyAddAssignment, hsplit]
    cases hv : lookupOpt values valuePath.asString with
    | none => rfl
    | some v =>
      cases v with
      | num n =>
        rw [hv] at hnum
        simp [isNumValue] at hnum
      | str s => rfl
      | bool b => rfl
  · intro names values it a attrPath valuePath n hsplit hv
    simp only [applyAddAssignment, hsplit, hv]

/-- C6 witness: the amended theorem at a non-numeric addend (no-op) and at
a numeric addend over a numeric prior (30 + 5). -/
theorem applyAdd_numeric_witness :
    applyAddAssignment none (some [(":v", .str "s")]) [("x", .num 1)]
      "x :v".data = [("x", .num 1)] ∧
    applyAddAssignment (some [("#age", "age")]) (some [(":inc", .num 5)])
      [("age", .num 30)] "#age :inc".data = [("age", .num 35)] := by
  constructor
  · exact applyAdd_numeric_spec.1 none (some [(":v", .str "s")]) [("x", .num 1)]
      "x :v".data "x".data ":v".data rfl rfl
  · exact applyAdd_numeric_spec.2.1 (some [("#age", "age")])
      (some [(":inc", .num 5)]) [("age", .num 30)] "#age :inc".data
      "#age".data ":inc".data 5 rfl rfl

/-! ### putItem timestamps and round trip (claim C1) -/

/-- C1 counterexample: for an item carrying updatedAt equal to old, the
emulator's putItem followed by getItem returns the item with updatedAt
still old, while the networked implementation's timestamp step stores
updatedAt equal to the (different) store time new — the two
implementations do not perform the timestamp side effect identically, and
the emulator does not refresh updatedAt at all. -/
theorem putItem_timestamps_counterexample :
    getItem userSvc
      (putItem userSvc [] [("userId", .str "u1"), ("updatedAt", .str "old")] {}).2
      [("userId", .str "u1"), ("updatedAt", .str "old")] =
      .ok (some [("userId", .str "u1"), ("updatedAt", .str "old")]) ∧
    lookup (prodPutTimestamps [("userId", .str "u1"), ("updatedAt", .str "old")]
      "new") "updatedAt" = some (.str "new") ∧
    Value.str "old" ≠ Value.str "new" := by
  refine ⟨rfl, rfl, by decide⟩

/-- C1 (amended): the emulator's putItem stores the item unchanged, so
putItem followed by getItem returns an item equal to I exactly (no
timestamp side effect); the networked implementation, before storing,
refreshes updatedAt to the store time whenever the item carries that key,
populates createdAt with the store time when that key is present with a
falsy value, and leaves a non-falsy createdAt unchanged. -/
theorem putItem_timestamps_spec :
    (∀ (svc : DbService) (st : Store) (I : Item),
       svc.parse I = some I →
       getItem svc (putItem svc st I {}).2 I = .ok (some I))
  ∧ (∀ (I : Item) (now : String) (u : Value),
       lookup I "updatedAt" = some u →
       lookup (prodPutTimestamps I now) "updatedAt" = some (.str now))
  ∧ (∀ (I : Item) (now : String) (cv : Value),
       lookup I "createdAt" = some cv → valFalsy cv = true →
       lookup (prodPutTimestamps I now) "createdAt" = some (.str now))
  ∧ (∀ (I : Item) (now : String) (cv : Value),
       lookup I "createdAt" = some cv → valFalsy cv = false →
       lookup (prodPutTimestamps I now) "createdAt" = some cv) := by
  refine ⟨?_, ?_, ?_, ?_⟩
  · intro svc st I hI
    have hcond : evaluateCondition (mapGet st (serializeKey (buildKey svc I)))
        (WriteOptions.conditionExpression {})
        (WriteOptions.expressionAttributeNames {})
        (WriteOptions.expressionAttributeValues {}) = true := rfl
    simp only [putItem, hcond, if_true, validateAndParseItem, hI]
    simp only [show (WriteOptions.returnValues {} == some "ALL_OLD") = false
      from rfl, Bool.false_eq_true, if_false]
    simp only [getItem, mapGet_mapSet_self, validateAndParseItem, hI]
  · intro I now u hu
    unfold prodPutTimestamps
    have hne : ("updatedAt" : String) ≠ "createdAt" := by decide
    cases hc : lookup I "createdAt" with
    | none =>
      simp only [hu]
      exact lookup_setAttr_self I "updatedAt" (Value.str now)
    | some cv =>
      by_cases hf : valFalsy cv = true
      · simp only [hf, if_true, lookup_setAttr_ne I "createdAt" "updatedAt"
          (Value.str now) hne, hu]
        exact lookup_setAttr_self _ "updatedAt" (Value.str now)
      · simp only [if_neg hf, hu]
        exact lookup_setAttr_self I "updatedAt" (Value.str now)
  · intro I now cv hc hf
    unfold prodPutTimestamps
    have hne : ("createdAt" : String) ≠ "updatedAt" := by decide
    simp only [hc, hf, if_true]
    have h1 : lookup (setAttr I "createdAt" (Value.str now)) "updatedAt" =
        lookup I "updatedAt" :=
      lookup_setAttr_ne I "createdAt" "updatedAt" (Value.str now) (by decide)
    rw [h1]
    cases hu : lookup I "updatedAt" with
    | none => exact lookup_setAttr_self I "createdAt" (Value.str now)
    | some u =>
      rw [lookup_setAttr_ne _ "updatedAt" "createdAt" (Value.str now) hne]
      exact lookup_setAttr_self I "createdAt" (Value.str now)
  · intro I now cv hc hf
    unfold prodPutTimestamps
    have hne : ("createdAt" : String) ≠ "updatedAt" := by decide
    simp only [hc, hf, Bool.false_eq_true, if_false]
    cases hu : lookup I "updatedAt" with
    | none => exact hc
    | some u =>
      rw [lookup_setAttr_ne _ "updatedAt" "createdAt" (Value.str now) hne]
      exact hc

/-- C1 witness: the amended behaviour at concrete items — the emulator
round trip returns the item unchanged, and the networked timestamp step at
a falsy and a non-falsy createdAt. -/
theorem putItem_timestamps_witness :
    getItem userSvc (putItem userSvc [] [("userId", .str "u1")] {}).2
      [("userId", .str "u1")] = .ok (some [("userId", .str "u1")]) ∧
    lookup (prodPutTimestamps [("createdAt", .str ""), ("updatedAt", .str "old")]
      "now") "createdAt" = some (.str "now") ∧
    lookup (prodPutTimestamps [("createdAt", .str "kept")] "now") "createdAt" =
      some (.str "kept") := by
  refine ⟨?_, ?_, ?_⟩
  · exact putItem_timestamps_spec.1 userSvc [] [("userId", .str "u1")] rfl
  · exact putItem_timestamps_spec.2.2.1 [("createdAt", .str ""), ("updatedAt", .str "old")]
      "now" (.str "") rfl rfl
  · exact putItem_timestamps_spec.2.2.2 [("createdAt", .str "kept")] "now"
      (.str "kept") rfl rfl

/-! ### updateItem and the updatedAt injection (claim C4) -/

theorem isPrefixOf_append_self {α : Type} [BEq α] [LawfulBEq α] :
    ∀ (a b : List α), a.isPrefixOf (a ++ b) = true
  | [], _ => by simp [List.isPrefixOf]
  | x :: xs, b => by
    simp only [List.cons_append, List.isPrefixOf]
    simp [isPrefixOf_append_self xs b]

theorem takeWhile_false_of_all (p : Char → Bool) :
    ∀ (l : List Char), (∀ ch ∈ l, p ch = false) → l.takeWhile p = []
  | [], _ => rfl
  | c :: cs, h => by
    simp [List.takeWhile_cons, h c (by simp)]

theorem dropWhile_self_of_all (p : Char → Bool) :
    ∀ (l : List Char), (∀ ch ∈ l, p ch = false) → l.dropWhile p = l
  | [], _ => rfl
  | c :: cs, h => by
    simp [List.dropWhile_cons, h c (by simp)]

theorem containsSub_of_prefix (l pat : List Char) (h : pat.isPrefixOf l = true) :
    containsSub l pat = true := by
  cases l with
  | nil =>
    cases pat with
    | nil => rfl
    | cons p ps => simp [List.isPrefixOf] at h
  | cons c rest => simp [containsSub, h]

theorem trimList_self_of_no_ws (l : List Char)
    (h : ∀ ch ∈ l, jsWs ch = false) : trimList l = l := by
  unfold trimList
  rw [dropWhile_self_of_all jsWs l h,
    dropWhile_self_of_all jsWs l.reverse (fun ch hch => h ch (by simpa using hch)),
    List.reverse_reverse]

theorem findTermKw_none_of_no_ws_head (terms : List String) :
    ∀ (l : List Char), (∀ ch ∈ l, jsWs ch = false) →
      findTermKw terms l = none := by
  intro l h
  unfold findTermKw
  rw [takeWhile_false_of_all jsWs l h]

theorem lazyClauseGo_no_ws (terms : List String) :
    ∀ (l acc : List Char), l ≠ [] → (∀ ch ∈ l, jsWs ch = false) →
      lazyClauseGo terms acc l = some (acc.reverse ++ l, none) := by
  intro l
  induction l with
  | nil => intro acc h _; exact absurd rfl h
  | cons c rest ih =>
    intro acc _ hws
    simp only [lazyClauseGo]
    rw [findTermKw_none_of_no_ws_head terms rest
      (fun ch hch => hws ch (List.mem_cons_of_mem _ hch))]
    cases rest with
    | nil => simp
    | cons d ds =>
      rw [ih (c :: acc) (by simp)
        (fun ch hch => hws ch (List.mem_cons_of_mem _ hch))]
      simp

theorem findClauseMatch_set_prefix (terms : List String) (c : List Char)
    (hne : c ≠ []) (hws : ∀ ch ∈ c, jsWs ch = false) :
    findClauseMatch "SET".data terms ("SET ".data ++ c) = some ([], c, none) := by
  cases c with
  | nil => exact absurd rfl hne
  | cons c0 cs =>
    show findClauseMatch "SET".data terms ('S' :: 'E' :: 'T' :: ' ' :: c0 :: cs) =
      some ([], c0 :: cs, none)
    rw [findClauseMatch.eq_def]
    dsimp only
    rw [show ("SET".data.isPrefixOf
      ('S' :: 'E' :: 'T' :: ' ' :: c0 :: cs)) = true from rfl]
    simp only [eq_self_iff_true, if_true]
    rw [show ('S' :: 'E' :: 'T' :: ' ' :: c0 :: cs).drop "SET".data.length =
      ' ' :: c0 :: cs from rfl]
    have ht : (' ' :: c0 :: cs).takeWhile jsWs = [' '] := by
      rw [List.takeWhile_cons, show jsWs ' ' = true from rfl,
        takeWhile_false_of_all jsWs (c0 :: cs) hws]
      rfl
    rw [ht]
    dsimp only
    rw [show (' ' :: c0 :: cs).drop [' '].length = c0 :: cs from rfl]
    rw [lazyClauseGo_no_ws terms (c0 :: cs) [] (by simp) hws]
    simp

/-- C4 counterexample: the emulator's updateItem applies the caller's SET
expression unchanged — after an update that only sets name, the stored
item still carries the pre-existing updatedAt value old, so the stored item
does not always carry a refreshed updatedAt. -/
theorem updateItem_timestamp_counterexample :
    updateItem userSvc
      [(serializeKey (buildKey userSvc [("userId", .str "u1")]),
        [("userId", .str "u1"), ("name", .str "A"), ("updatedAt", .str "old")])]
      [("userId", .str "u1")]
      { updateExpression := "SET #name = :name",
        expressionAttributeNames := some [("#name", "name")],
        expressionAttributeValues := some [(":name", .str "B")] } =
      (.ok none,
       [(serializeKey (buildKey userSvc [("userId", .str "u1")]),
         [("userId", .str "u1"), ("name", .str "B"),
          ("updatedAt", .str "old")])]) ∧
    lookup [("userId", Value.str "u1"), ("name", Value.str "B"),
      ("updatedAt", Value.str "old")] "updatedAt" = some (.str "old") ∧
    Value.str "old" ≠ Value.str "now" := by
  refine ⟨rfl, rfl, by decide⟩

/-- C4 (amended): the networked implementation's
addTimestampToUpdateExpression always appends the updatedAt assignment —
prefixing a fresh SET clause when the expression has none, and merging into
an existing SET clause by appending rather than overwriting it; the
emulator's updateItem, by contrast, feeds the caller's update expression
unchanged to its parser with no updatedAt injection, so the stored item's
updatedAt changes only when the caller's own expression changes it. The
injected assignment composes with the emulator parser to a refreshed
updatedAt. -/
theorem updateItem_timestamp_spec :
    (∀ (e : String) (nm : Option NameMap) (vl : Option ValueMap) (now : String),
       containsSub e.data "SET ".data = false →
       (addTimestampToUpdateExpression e nm vl now).1 =
         "SET #updatedAt = :updatedAt " ++ e)
  ∧ (∀ (c : String) (nm : Option NameMap) (vl : Option ValueMap) (now : String),
       c ≠ "" → (∀ ch ∈ c.data, jsWs ch = false) →
       (addTimestampToUpdateExpression ("SET " ++ c) nm vl now).1 =
         "SET " ++ c ++ ", #updatedAt = :updatedAt")
  ∧ (∀ (svc : DbService) (st : Store) (key : Item) (opts : UpdateOptions)
       (existing t : Item),
       mapGet st (serializeKey (buildKey svc key)) = some existing →
       evaluateCondition (some existing) opts.conditionExpression
         opts.expressionAttributeNames opts.expressionAttributeValues = true →
       svc.parse (applyUpdateExpression existing opts.updateExpression
         opts.expressionAttributeNames opts.expressionAttributeValues) = some t →
       (updateItem svc st key opts).2 =
         mapSet st (serializeKey (buildKey svc key))
           (applyUpdateExpression existing opts.updateExpression
             opts.expressionAttributeNames opts.expressionAttributeValues))
  ∧ applyUpdateExpression [("a", .num 1), ("updatedAt", .str "old")]
      (addTimestampToUpdateExpression "SET #a = :v" (some [("#a", "a")])
        (some [(":v", .num 2)]) "now").1
      (some (addTimestampToUpdateExpression "SET #a = :v" (some [("#a", "a")])
        (some [(":v", .num 2)]) "now").2.1)
      (some (addTimestampToUpdateExpression "SET #a = :v" (some [("#a", "a")])
        (some [(":v", .num 2)]) "now").2.2) =
      [("a", .num 2), ("updatedAt", .str "now")] := by
  refine ⟨?_, ?_, ?_, rfl⟩
  · intro e nm vl now hset
    simp only [addTimestampToUpdateExpression, hset, Bool.false_eq_true,
      if_false]
  · intro c nm vl now hcne hcws
    obtain ⟨d⟩ := c
    have hdne : d ≠ [] := by
      intro h
      subst h
      exact hcne rfl
    have hdata : (("SET " ++ String.mk d)).data = "SET ".data ++ d := rfl
    have hcontains : containsSub ("SET " ++ String.mk d).data "SET ".data = true := by
      rw [hdata]
      exact containsSub_of_prefix _ _ (isPrefixOf_append_self _ _)
    have hfind : findClauseMatch "SET".data ["ADD", "REMOVE", "DELETE"]
        ("SET " ++ String.mk d).data = some ([], d, none) := by
      rw [hdata]
      exact findClauseMatch_set_prefix _ d hdne hcws
    simp only [addTimestampToUpdateExpression, hcontains, if_true, hfind]
    rw [trimList_self_of_no_ws d hcws]
    apply String.ext
    simp [String.data_append, show ∀ l : List Char, l.asString.data = l
      from fun l => rfl]
  · intro svc st key opts existing t hget hcond hparse
    simp only [updateItem, hget, hcond, if_true, validateAndParseItem, hparse]
    cases hr : opts.returnValues with
    | none => rfl
    | some s =>
      split
      · cases svc.parse existing <;> rfl
      · rfl
      · rfl
      · cases svc.parse existing <;> rfl
      · rfl

/-- C4 witness: the amended theorem at concrete inputs — injection into an
expression with no SET clause, merging into an existing SET clause, and the
emulator storing exactly the parser's output for the caller's expression. -/
theorem updateItem_timestamp_witness :
    (addTimestampToUpdateExpression "ADD x :v" none none "now").1 =
      "SET #updatedAt = :updatedAt " ++ "ADD x :v" ∧
    (addTimestampToUpdateExpression ("SET " ++ "#a=:v") none none "now").1 =
      "SET " ++ "#a=:v" ++ ", #updatedAt = :updatedAt" ∧
    (updateItem userSvc
      [(serializeKey (buildKey userSvc [("userId", .str "u1")]),
        [("userId", .str "u1"), ("name", .str "A")])]
      [("userId", .str "u1")]
      { updateExpression := "SET #name = :name",
        expressionAttributeNames := some [("#name", "name")],
        expressionAttributeValues := some [(":name", .str "B")] }).2 =
      mapSet
        [(serializeKey (buildKey userSvc [("userId", .str "u1")]),
          [("userId", .str "u1"), ("name", .str "A")])]
        (serializeKey (buildKey userSvc [("userId", .str "u1")]))
        (applyUpdateExpression [("userId", .str "u1"), ("name", .str "A")]
          "SET #name = :name" (some [("#name", "name")])
          (some [(":name", .str "B")])) := by
  refine ⟨?_, ?_, ?_⟩
  · exact updateItem_timestamp_spec.1 "ADD x :v" none none "now" rfl
  · exact updateItem_timestamp_spec.2.1 "#a=:v" none none "now" (by decide)
      (by decide)
  · exact updateItem_timestamp_spec.2.2.1 userSvc
      [(serializeKey (buildKey userSvc [("userId", .str "u1")]),
        [("userId", .str "u1"), ("name", .str "A")])]
      [("userId", .str "u1")]
      { updateExpression := "SET #name = :name",
        expressionAttributeNames := some [("#name", "name")],
        expressionAttributeValues := some [(":name", .str "B")] }
      [("userId", .str "u1"), ("name", .str "A")]
      [("userId", .str "u1"), ("name", .str "B")] rfl rfl rfl

end SoapDb
